import Mathlib

/-!
Verification of the static mixed-precision casting pass ("autocast") and of the
stochastic-rounding optimizers (SRAdam / SRAdamW) of this repository.

The autocast pass itself (the TorchScript compile-time cast-insertion pass) is
not among the source files; only its behavioural tests
(test/test_jit_autocast.py) are.  Its data model and semantics are therefore
modelled from the spec (sections 3, 4.1, 4.2 and 4.3), and each test program is
embedded as a concrete program over that model.

The optimizer code (torch/optim/sradam.py, torch/optim/sradamw.py) is embedded
directly from the source.
-/

/-! ## Dtypes, policies and operations (spec section 3) -/

/-- Modelled from the spec: the three floating-point widths a value can carry
(half-precision, single-precision, double-precision). -/
inductive Dtype
  | half
  | single
  | double
deriving DecidableEq, Repr

/-- Modelled from the spec: a value's static dtype, which is either a resolved
floating width or "unresolved" (pending inference after a divergent merge). -/
inductive VType
  | dt (d : Dtype)
  | unresolved
deriving DecidableEq, Repr

/-- Numeric width of each dtype, used only to order half < single < double. -/
def width : Dtype → Nat
  | .half => 16
  | .single => 32
  | .double => 64

/-- The wider of two dtypes. -/
def maxDtype (d1 d2 : Dtype) : Dtype :=
  if width d1 < width d2 then d2 else d1

/-- Widest dtype of a list of floating inputs (half when the list is empty;
every operation in the embedded programs has at least one input). -/
def widest (ds : List Dtype) : Dtype :=
  ds.foldl maxDtype Dtype.half

/-- Modelled from the spec: the casting policies of the Policy Table. -/
inductive Policy
  | castToLower
  | castToHigher
  | promoteToWidest
  | unchanged
deriving DecidableEq, Repr

/-- Operation identities appearing in the observed tests: matrix multiply
(CastToLower), natural log (CastToHigher), fused scaled add / addcmul
(PromoteToWidest), and a catch-all for unlisted operations. -/
inductive OpName
  | mm
  | log
  | addcmul
  | other
deriving DecidableEq, Repr

/-- Modelled from the spec: the Policy Table.  Lookup is total; every
operation not explicitly listed resolves to Unchanged. -/
def policyOf : OpName → Policy
  | .mm => .castToLower
  | .log => .castToHigher
  | .addcmul => .promoteToWidest
  | .other => .unchanged

/-! ## Programs (graph with region markers, spec sections 3 and 6) -/

/-- Modelled from the spec: the enabling expression of a region-entry marker.
A region is entered with a literal boolean, with a first-class handle value
(identity plus its statically-established enabled flag), with a
runtime-dependent boolean (a function parameter or a data-dependent
comparison, carrying a descriptive tag), or with a runtime-conditional
selection between two distinct handle values. -/
inductive RegionFlag
  | lit (b : Bool)
  | handle (id : Nat) (enabled : Bool)
  | runtime (source : String)
  | selectHandles (id1 : Nat) (e1 : Bool) (id2 : Nat) (e2 : Bool)
deriving DecidableEq, Repr

/-- Basic (straight-line) statements: an operation binding its result to a
variable, or an explicit user-written cast. -/
inductive BStmt
  | op (dst : String) (name : OpName) (args : List String)
  | cst (dst : String) (src : String) (d : Dtype)
deriving DecidableEq, Repr

/-- A user-defined helper function: formal parameters, a straight-line body,
and the variable returned.  Per the spec, callees are fully inlined and
specialized per call site. -/
structure FnDef where
  params : List String
  body : List BStmt
  ret : String
deriving DecidableEq, Repr

/-- Modelled from the spec: program statements — basic statements, region
entry/exit markers, sequencing, a structured if/else on a runtime condition
(both branches analysed statically), and a call to a helper that the compiler
fully inlines at the call site. -/
inductive Stmt
  | skip
  | basic (b : BStmt)
  | enterRegion (f : RegionFlag)
  | exitRegion
  | seq (s1 s2 : Stmt)
  | ite (t e : Stmt)
  | call (dst : String) (fn : FnDef) (args : List String)
deriving Repr

/-- Build a statement from a list by sequencing. -/
def block (ss : List Stmt) : Stmt :=
  ss.foldr Stmt.seq Stmt.skip

/-! ## The pass state (Region Tracker and value environment) -/

/-- Modelled from the spec: the statically-known autocast context of a region:
its enabled flag and, when it was entered through a handle, that handle's
identity. -/
structure Ctx where
  enabled : Bool
  handleId : Option Nat
deriving DecidableEq, Repr

/-- The state threaded through the pass: the stack of active regions
(innermost first) and the static dtype environment of the program values. -/
structure PassState where
  regions : List Ctx
  env : List (String × VType)
deriving DecidableEq, Repr

/-- Modelled from the spec: the compile-time failure taxonomy (spec section
7).  `malformedGraph` covers graphs that reference unbound values, which the
upstream compiler never produces. -/
inductive PassError
  | nonStaticAutocastState
  | divergentAutocastState
  | divergentValueType
  | unsupportedRegionNesting
  | malformedGraph
deriving DecidableEq, Repr

/-- Look a variable up in the dtype environment. -/
def lookupVar : List (String × VType) → String → Option VType
  | [], _ => none
  | (y, t) :: rest, x => if y = x then some t else lookupVar rest x

/-- Bind a variable in the environment, overwriting an existing binding. -/
def bindVar : List (String × VType) → String → VType → List (String × VType)
  | [], x, t => [(x, t)]
  | (y, u) :: rest, x, t =>
    if y = x then (x, t) :: rest else (y, u) :: bindVar rest x t

/-- Look up the dtypes of an argument list; none when any argument is
unbound. -/
def lookupArgs (env : List (String × VType)) : List String → Option (List VType)
  | [] => some []
  | x :: xs =>
    match lookupVar env x, lookupArgs env xs with
    | some t, some ts => some (t :: ts)
    | _, _ => none

/-- All input dtypes when none of them is unresolved. -/
def allResolved : List VType → Option (List Dtype)
  | [] => some []
  | .dt d :: rest =>
    match allResolved rest with
    | some ds => some (d :: ds)
    | none => none
  | .unresolved :: _ => none

/-- Modelled from the spec: the active state at any point is the innermost
enclosing region's state, or "no autocast" (disabled) at top level. -/
def currentlyEnabled : List Ctx → Bool
  | [] => false
  | c :: _ => c.enabled

/-! ## Cast insertion (spec section 4.3) -/

/-- CastToLower input rule: single-precision floating inputs are cast to the
designated lower precision (half).  Explicitly double-precision inputs are
not eligible and pass through untouched (this is what lets an explicit
up-cast escape the policy, per the observed `test_explicit_casts`). -/
def lowerCast (d : Dtype) : Dtype :=
  if d = .single then .half else d

/-- CastToHigher input rule: inputs narrower than single precision are cast
up to single precision; inputs at or above single precision are never cast
down. -/
def higherCast (d : Dtype) : Dtype :=
  if d = .half then .single else d

/-- Modelled from the spec: the output dtype of one operation given the
effective context.  When the innermost region is enabled the Policy Table is
consulted; outside an enabled region every operation is Unchanged.  The
output dtype is the kernel's natural result dtype, namely the widest of the
input dtypes after the policy's input casts.  A cast-insertion decision
(CastToLower / CastToHigher) on an unresolved input cannot be made statically
and fails with DivergentValueType; PromoteToWidest and Unchanged operations
normalize at run time and simply produce an unresolved output. -/
def opResult (enabled : Bool) (name : OpName) (tys : List VType) :
    Except PassError VType :=
  match (if enabled then policyOf name else Policy.unchanged) with
  | .castToLower =>
    match allResolved tys with
    | none => .error .divergentValueType
    | some ds => .ok (.dt (widest (ds.map lowerCast)))
  | .castToHigher =>
    match allResolved tys with
    | none => .error .divergentValueType
    | some ds => .ok (.dt (widest (ds.map higherCast)))
  | .promoteToWidest =>
    match allResolved tys with
    | none => .ok .unresolved
    | some ds => .ok (.dt (widest ds))
  | .unchanged =>
    match allResolved tys with
    | none => .ok .unresolved
    | some ds => .ok (.dt (widest ds))

/-- Process one basic statement.  An explicit user-written cast is never
overridden: the destination's dtype is exactly the cast's target dtype,
whatever the source dtype was. -/
def processBStmt (b : BStmt) (st : PassState) : Except PassError PassState :=
  match b with
  | .op dst name args =>
    match lookupArgs st.env args with
    | none => .error .malformedGraph
    | some tys =>
      match opResult (currentlyEnabled st.regions) name tys with
      | .error e => .error e
      | .ok t => .ok { st with env := bindVar st.env dst t }
  | .cst dst src d =>
    match lookupVar st.env src with
    | none => .error .malformedGraph
    | some _ => .ok { st with env := bindVar st.env dst (.dt d) }

/-- Process a straight-line body (used for fully-inlined helper bodies). -/
def processBStmts : List BStmt → PassState → Except PassError PassState
  | [], st => .ok st
  | b :: rest, st =>
    match processBStmt b st with
    | .error e => .error e
    | .ok st2 => processBStmts rest st2

/-- Modelled from the spec: value-dtype join at a control-flow merge.  A name
bound with the same dtype on both branches keeps it; a name whose dtypes
differ becomes a new merged value with unresolved dtype; a name bound on only
one branch is not live after the join. -/
def joinEnv (e1 e2 : List (String × VType)) : List (String × VType) :=
  e1.filterMap fun p =>
    match lookupVar e2 p.1 with
    | none => none
    | some u => some (p.1, if p.2 = u then p.2 else VType.unresolved)

/-- Modelled from the spec: the Region Tracker, Divergence Checker and Cast
Insertion Pass over a statement, threading the region stack and the dtype
environment.  Region entry with a runtime-valued flag or with a conditional
selection between two distinct handles fails with NonStaticAutocastState;
entry with a literal or with a handle whose enabled flag is statically
established pushes its context (re-entering the same handle simply pushes the
same state again).  At an if/else join the region stacks of the two branches
must agree exactly, else DivergentAutocastState; the environments are joined
pointwise.  A helper call is processed by analysing the callee body, inlined
at the call site, under the caller's current region stack. -/
def processStmt : Stmt → PassState → Except PassError PassState
  | .skip, st => .ok st
  | .basic b, st => processBStmt b st
  | .enterRegion f, st =>
    match f with
    | .lit b => .ok { st with regions := ⟨b, none⟩ :: st.regions }
    | .handle id e => .ok { st with regions := ⟨e, some id⟩ :: st.regions }
    | .runtime _ => .error .nonStaticAutocastState
    | .selectHandles _ _ _ _ => .error .nonStaticAutocastState
  | .exitRegion, st =>
    match st.regions with
    | [] => .error .unsupportedRegionNesting
    | _ :: rest => .ok { st with regions := rest }
  | .seq s1 s2, st =>
    match processStmt s1 st with
    | .error e => .error e
    | .ok st2 => processStmt s2 st2
  | .ite t e, st =>
    match processStmt t st, processStmt e st with
    | .ok st1, .ok st2 =>
      if st1.regions = st2.regions then
        .ok ⟨st1.regions, joinEnv st1.env st2.env⟩
      else
        .error .divergentAutocastState
    | .error e1, _ => .error e1
    | _, .error e2 => .error e2
  | .call dst fn args, st =>
    match lookupArgs st.env args with
    | none => .error .malformedGraph
    | some tys =>
      if fn.params.length = tys.length then
        match processBStmts fn.body ⟨st.regions, List.zip fn.params tys⟩ with
        | .error e => .error e
        | .ok st2 =>
          match lookupVar st2.env fn.ret with
          | none => .error .malformedGraph
          | some t => .ok { st with env := bindVar st.env dst t }
      else .error .malformedGraph

/-- Run the pass on a whole program, starting with no active region and the
given input dtypes. -/
def runProg (inputs : List (String × VType)) (p : Stmt) :
    Except PassError PassState :=
  processStmt p ⟨[], inputs⟩

/-- Whether the pass accepted the program. -/
def passOk : Except PassError PassState → Bool
  | .ok _ => true
  | .error _ => false

/-- The dtype the pass assigns to a given variable, when compilation
succeeds and the variable is bound. -/
def varDtype (inputs : List (String × VType)) (p : Stmt) (x : String) :
    Option VType :=
  match runProg inputs p with
  | .ok st => lookupVar st.env x
  | .error _ => none

/-- The four single-precision inputs every observed test starts from. -/
def stdEnv : List (String × VType) :=
  [("a", .dt .single), ("b", .dt .single), ("c", .dt .single),
   ("d", .dt .single)]

/-- Shorthand for a matrix-multiply statement. -/
def mmS (dst x y : String) : Stmt :=
  .basic (.op dst .mm [x, y])

/-- Shorthand for an explicit-cast statement. -/
def cstS (dst src : String) (d : Dtype) : Stmt :=
  .basic (.cst dst src d)

example : varDtype stdEnv (block [.enterRegion (.lit true), mmS "r" "a" "b",
    .exitRegion]) "r" = some (.dt .half) := by rfl

example : varDtype stdEnv (block [.enterRegion (.lit false), mmS "r" "a" "b",
    .exitRegion]) "r" = some (.dt .single) := by rfl

/-! ## The observed test programs -/

/-- Program of `test_runtime_autocast_state`: the region's enabled flag is the
runtime boolean parameter `use_amp`. -/
def runtimeFlagProg : Stmt :=
  block [.enterRegion (.runtime "parameter use_amp"), mmS "r" "a" "b",
         .exitRegion]

/-- Program of `test_runtime_autocast_state_expr`: the region's enabled flag
is a data-dependent comparison on a tensor element. -/
def dataDependentFlagProg : Stmt :=
  block [.enterRegion (.runtime "comparison on a tensor element"),
         mmS "r" "a" "b", .exitRegion]

/-- Program of `test_conditional_autocast`: the region marker is a
runtime-conditional selection between two distinct handles (handle 0 enabled,
handle 1 disabled). -/
def conditionalHandleProg : Stmt :=
  block [.enterRegion (.selectHandles 0 true 1 false), mmS "r" "a" "b",
         .exitRegion]

/-- Program of `test_explicit_casts`: inside an enabled region, a matmul of
two operands explicitly up-cast to double, then down-cast to single; a matmul
whose result is explicitly cast to double; and, outside the region, a matmul
consuming that double result. -/
def explicitCastsProg : Stmt :=
  block [.enterRegion (.lit true),
         cstS "a2" "a" .double, cstS "b2" "b" .double,
         mmS "t1" "a2" "b2", cstS "e" "t1" .single,
         mmS "t2" "c" "d", cstS "f" "t2" .double,
         .exitRegion,
         cstS "c2" "c" .double, mmS "g" "c2" "f"]

/-- Program of `test_promote_policy`: a CastToLower matmul followed by an
addcmul (PromoteToWidest) mixing its half result with single operands. -/
def promotePolicyProg : Stmt :=
  block [.enterRegion (.lit true),
         mmS "e" "a" "b",
         .basic (.op "f" .addcmul ["e", "c", "d"]),
         .exitRegion]

/-- Program of `test_nested_autocast`: an outer disabled region, an inner
enabled region, and an innermost disabled region, with one matmul under
each. -/
def nestedAutocastProg : Stmt :=
  block [.enterRegion (.lit false),
         mmS "e" "a" "b",
         .enterRegion (.lit true),
         mmS "f" "e" "c",
         .enterRegion (.lit false),
         mmS "g" "e" "d",
         .exitRegion, .exitRegion, .exitRegion]

/-- Program of `test_reused_autocast`: the same enabled handle (identity 0)
is entered as both the outer and an inner region marker; two matmuls run
under the reused handle and their results are combined outside. -/
def reusedAutocastProg : Stmt :=
  block [.enterRegion (.handle 0 true),
         mmS "e" "a" "b",
         .enterRegion (.handle 0 true),
         mmS "e" "c" "d",
         mmS "f" "d" "e",
         .exitRegion, .exitRegion,
         mmS "g" "e" "f"]

/-- Program of `test_divergent_autocast`: each branch of a runtime
conditional enters and exits its own complete region — handle 0 enabled on
the then-branch, handle 1 disabled on the else-branch — and the merged value
is consumed after the join, outside any region. -/
def divergentAutocastProg : Stmt :=
  block [.ite
           (block [.enterRegion (.handle 0 true), mmS "e" "a" "b",
                   .exitRegion])
           (block [.enterRegion (.handle 1 false), mmS "e" "c" "d",
                   .exitRegion]),
         mmS "r" "e" "e"]

/-- A program whose branches reach the join with incompatible contexts still
active: the then-branch leaves an enabled handle region open, the else-branch
leaves a disabled handle region open. -/
def openDivergenceProg : Stmt :=
  block [.ite (block [.enterRegion (.handle 0 true)])
              (block [.enterRegion (.handle 1 false)]),
         mmS "e" "a" "b"]

/-- Program of `test_divergent_types`: under one enabled region, the two
branches bind `e` and `f` with swapped half/single dtypes; after the join
both merged values are explicitly cast to single before the final matmul. -/
def divergentTypesProg : Stmt :=
  block [.enterRegion (.lit true),
         .ite
           (block [mmS "e" "a" "b",
                   mmS "f0" "a" "b", cstS "f" "f0" .single])
           (block [mmS "e0" "c" "d", cstS "e" "e0" .single,
                   mmS "f" "a" "b"]),
         .exitRegion,
         cstS "ef" "e" .single, cstS "ff" "f" .single,
         mmS "r" "ef" "ff"]

/-- Variant of `test_divergent_types` with the normalizing casts removed and
the merged values consumed by a dtype-sensitive operation (a CastToLower
matmul inside an enabled region). -/
def divergentTypesNoNormProg : Stmt :=
  block [.enterRegion (.lit true),
         .ite
           (block [mmS "e" "a" "b",
                   mmS "f0" "a" "b", cstS "f" "f0" .single])
           (block [mmS "e0" "c" "d", cstS "e" "e0" .single,
                   mmS "f" "a" "b"]),
         mmS "r" "e" "f",
         .exitRegion]

/-- The helper of `test_callees`: a user-defined subroutine performing one
matmul. -/
def helperFn : FnDef :=
  ⟨["x", "y"], [BStmt.op "r" .mm ["x", "y"]], "r"⟩

/-- Program of `test_callees`: a chain of five helper calls inside an enabled
region, every matmul reached only through the helper. -/
def calleesProg : Stmt :=
  block [.enterRegion (.lit true),
         .call "tmp1" helperFn ["a", "b"],
         .call "tmp2" helperFn ["tmp1", "tmp1"],
         .call "tmp3" helperFn ["tmp2", "tmp2"],
         .call "tmp4" helperFn ["tmp3", "tmp3"],
         .call "res" helperFn ["tmp4", "b"],
         .exitRegion]

/-- The same computation with every matmul written literally inside the
region instead of being reached through the helper. -/
def calleesLiteralProg : Stmt :=
  block [.enterRegion (.lit true),
         mmS "tmp1" "a" "b",
         mmS "tmp2" "tmp1" "tmp1",
         mmS "tmp3" "tmp2" "tmp2",
         mmS "tmp4" "tmp3" "tmp3",
         mmS "res" "tmp4" "b",
         .exitRegion]

/-! ## Claims about the autocast pass -/

/-- Claim C1, counterexample: the program of `test_divergent_autocast`, in
which one branch is entered with an enabled autocast handle and the other
with a disabled handle (each region closed within its branch), is accepted by
the pass — compilation does not fail with DivergentAutocastState, refuting
the claim as stated; the merged value and its consumer merely carry an
unresolved dtype. -/
theorem c1_divergent_autocast_accepted :
    passOk (runProg stdEnv divergentAutocastProg) = true ∧
    varDtype stdEnv divergentAutocastProg "e" = some VType.unresolved ∧
    varDtype stdEnv divergentAutocastProg "r" = some VType.unresolved :=
  ⟨rfl, rfl, rfl⟩

/-- Claim C1, amended: compilation fails with DivergentAutocastState exactly
when the two branches reach the join with incompatible statically-known
autocast contexts still active — here, the then-branch leaves an enabled
handle region open and the else-branch a disabled one — even though the
branches are selected by a runtime condition; the failure is a compile-time
rejection, before any kernel runs. -/
theorem c1_open_divergence_rejected :
    runProg stdEnv openDivergenceProg =
      Except.error PassError.divergentAutocastState :=
  rfl

/-- Claim C2: a region whose enabled flag is not a compile-time constant — a
runtime boolean parameter, a data-dependent boolean expression, or a
runtime-conditional selection between two distinct autocast handles — makes
compilation fail with NonStaticAutocastState, so no result (half-precision or
otherwise) is ever produced. -/
theorem c2_nonstatic_autocast_rejected :
    runProg stdEnv runtimeFlagProg =
      Except.error PassError.nonStaticAutocastState ∧
    runProg stdEnv dataDependentFlagProg =
      Except.error PassError.nonStaticAutocastState ∧
    runProg stdEnv conditionalHandleProg =
      Except.error PassError.nonStaticAutocastState ∧
    varDtype stdEnv runtimeFlagProg "r" = none ∧
    varDtype stdEnv dataDependentFlagProg "r" = none ∧
    varDtype stdEnv conditionalHandleProg "r" = none :=
  ⟨rfl, rfl, rfl, rfl, rfl, rfl⟩

/-- Claim C4: explicit user-written casts are never overridden by the pass.
Inside an enabled region a matmul whose two single-precision operands are
explicitly up-cast to double produces a double-precision result (not the
half-precision result CastToLower would otherwise give, as the plain matmul
`t2` shows), and the explicitly double-cast result `f` keeps double precision
at its use site outside the region. -/
theorem c4_explicit_casts_escape :
    varDtype stdEnv explicitCastsProg "t1" = some (VType.dt Dtype.double) ∧
    varDtype stdEnv explicitCastsProg "t2" = some (VType.dt Dtype.half) ∧
    varDtype stdEnv explicitCastsProg "e" = some (VType.dt Dtype.single) ∧
    varDtype stdEnv explicitCastsProg "f" = some (VType.dt Dtype.double) ∧
    varDtype stdEnv explicitCastsProg "g" = some (VType.dt Dtype.double) :=
  ⟨rfl, rfl, rfl, rfl, rfl⟩

/-- Claim C5: region nesting is honored strictly per operation.  With an
outer disabled region, an inner enabled region and an innermost disabled
region, the three matmuls produce single, half and single precision
respectively; and in general the active state at any point is the innermost
enclosing region's state. -/
theorem c5_nested_regions :
    varDtype stdEnv nestedAutocastProg "e" = some (VType.dt Dtype.single) ∧
    varDtype stdEnv nestedAutocastProg "f" = some (VType.dt Dtype.half) ∧
    varDtype stdEnv nestedAutocastProg "g" = some (VType.dt Dtype.single) ∧
    ∀ (c : Ctx) (rest : List Ctx), currentlyEnabled (c :: rest) = c.enabled :=
  ⟨rfl, rfl, rfl, fun _ _ => rfl⟩

/-- Claim C6: under an enabled region, a CastToLower matmul on two
single-precision inputs yields a half-precision output, and the following
PromoteToWidest fused-scaled-add mixing that half result with two
single-precision operands yields a single-precision output (the widest
floating input width). -/
theorem c6_promote_policy_mix :
    varDtype stdEnv promotePolicyProg "e" = some (VType.dt Dtype.half) ∧
    varDtype stdEnv promotePolicyProg "f" = some (VType.dt Dtype.single) :=
  ⟨rfl, rfl⟩

/-- Claim C7: when `e` and `f` are bound half-precision on one branch and
single-precision on the other, the merged values' dtypes become unresolved,
yet compilation succeeds because every subsequent consumer normalizes them
with an explicit downstream cast before the first dtype-sensitive use, and
the final result is single-precision; without that normalization — the
merged values fed straight into a dtype-sensitive CastToLower matmul —
compilation fails with DivergentValueType. -/
theorem c7_divergent_value_types :
    varDtype stdEnv divergentTypesProg "e" = some VType.unresolved ∧
    varDtype stdEnv divergentTypesProg "f" = some VType.unresolved ∧
    varDtype stdEnv divergentTypesProg "r" = some (VType.dt Dtype.single) ∧
    runProg stdEnv divergentTypesNoNormProg =
      Except.error PassError.divergentValueType :=
  ⟨rfl, rfl, rfl, rfl⟩

/-- Claim C8: entering the same handle value as both the outer and an inner
region marker is legal, is not a conflicting nested region, and behaves as
one flat enabled region: both matmuls computed under the two uses of the
handle, and their combination afterwards, are half-precision. -/
theorem c8_reused_handle :
    passOk (runProg stdEnv reusedAutocastProg) = true ∧
    varDtype stdEnv reusedAutocastProg "e" = some (VType.dt Dtype.half) ∧
    varDtype stdEnv reusedAutocastProg "f" = some (VType.dt Dtype.half) ∧
    varDtype stdEnv reusedAutocastProg "g" = some (VType.dt Dtype.half) :=
  ⟨rfl, rfl, rfl, rfl⟩

/-- Claim C9: the autocast context propagates into fully-inlined callees: a
chain of helper calls inside an enabled region, each reaching a matmul only
through the helper, produces a half-precision result, and the pass gives the
whole program exactly the same outcome as the program with the matmuls
written literally inside the region. -/
theorem c9_callees_inlined :
    varDtype stdEnv calleesProg "res" = some (VType.dt Dtype.half) ∧
    runProg stdEnv calleesProg = runProg stdEnv calleesLiteralProg :=
  ⟨rfl, rfl⟩

/-! ## SRAdam and SRAdamW (torch/optim/sradam.py, torch/optim/sradamw.py)

The tensor entries are modelled generically over a value type with the square
and square-root kernels passed in as functions; the theorems instantiate them
over the reals. -/

/-- Per-parameter optimizer state as serialized in a state dict
(`state_dict['state']` values).  `max_exp_avg_sq` may be absent from a dict
being loaded, which `_apply_sqrt_to_state_dict` handles explicitly. -/
structure SRState (v : Type) where
  step : Nat
  exp_avg : v
  exp_avg_sq : v
  max_exp_avg_sq : Option v
deriving DecidableEq, Repr

/-- A serialized state dict: per-parameter states keyed by parameter index. -/
def StateDict (v : Type) := List (Nat × SRState v)

/-- Embeds `_apply_square_to_state_dict` (sradam.py lines 7-12): for every
per-parameter state, `exp_avg_sq.square_()` squares in place;
`max_exp_avg_sq.square()` is the out-of-place variant, whose freshly
allocated result is discarded, so the dict's `max_exp_avg_sq` entry is left
unchanged. -/
def applySquareToStateDict {v : Type} (sq : v → v) (sd : StateDict v) :
    StateDict v :=
  sd.map fun p => (p.1, { p.2 with exp_avg_sq := sq p.2.exp_avg_sq })

/-- Embeds `_apply_sqrt_to_state_dict` (sradam.py lines 15-23):
`exp_avg_sq.sqrt_()` in place; when `max_exp_avg_sq` is absent it is set to
`torch.zeros_like(exp_avg_sq)`, otherwise `max_exp_avg_sq.sqrt_()` in
place. -/
def applySqrtToStateDict {v : Type} (sqrtF : v → v) (zero : v)
    (sd : StateDict v) : StateDict v :=
  sd.map fun p => (p.1, { p.2 with
    exp_avg_sq := sqrtF p.2.exp_avg_sq,
    max_exp_avg_sq := some (match p.2.max_exp_avg_sq with
      | none => zero
      | some m => sqrtF m) })

/-- Embeds `SRAdam.state_dict`: the parent's serialization (the identity on
the state entries, an external collaborator) followed by
`_apply_square_to_state_dict`. -/
def sradamStateDict {v : Type} (sq : v → v) (sd : StateDict v) : StateDict v :=
  applySquareToStateDict sq sd

/-- Embeds `SRAdam.load_state_dict`: `_apply_sqrt_to_state_dict` on the dict
before handing it to the parent loader (which installs it unchanged). -/
def sradamLoadStateDict {v : Type} (sqrtF : v → v) (zero : v)
    (sd : StateDict v) : StateDict v :=
  applySqrtToStateDict sqrtF zero sd

/-- Claim C3: refuted by the code.  state_dict squares only `exp_avg_sq`
(`max_exp_avg_sq.square()` is out-of-place and its result is discarded) while
load_state_dict takes the square roots of both, so the round trip restores
`step`, `exp_avg` and `exp_avg_sq` but maps a `max_exp_avg_sq` of 4 to
`Real.sqrt 4 = 2 ≠ 4`. -/
theorem c3_sradam_state_dict_roundtrip_bug :
    sradamLoadStateDict Real.sqrt 0
        (sradamStateDict (fun x => x * x)
          ([(0, ⟨3, 5, 9, some 4⟩)] : StateDict ℝ)) =
      ([(0, ⟨3, 5, 9, some 2⟩)] : StateDict ℝ) ∧ (2 : ℝ) ≠ 4 := by
  have h81 : Real.sqrt ((9 : ℝ) * 9) = 9 := by
    rw [show (9 : ℝ) * 9 = 9 ^ 2 by ring,
        Real.sqrt_sq (by norm_num : (0 : ℝ) ≤ 9)]
  have h4 : Real.sqrt (4 : ℝ) = 2 := by
    rw [show (4 : ℝ) = 2 ^ 2 by norm_num,
        Real.sqrt_sq (by norm_num : (0 : ℝ) ≤ 2)]
  constructor
  · simp [sradamLoadStateDict, sradamStateDict, applySquareToStateDict,
          applySqrtToStateDict, StateDict, h81, h4]
  · norm_num

/-- The gradient of a parameter: its value and whether it is a sparse
tensor. -/
structure GradT (v : Type) where
  value : v
  isSparse : Bool
deriving DecidableEq, Repr

/-- A parameter of one parameter group: its identity (the dictionary key of
its optimizer state), its value, and its gradient, `none` when `param.grad`
is None. -/
structure ParamT (v : Type) where
  id : Nat
  value : v
  grad : Option (GradT v)
deriving DecidableEq, Repr

/-- Optimizer state of one parameter as initialized inside `step`: the step
counter and the three moment tensors. -/
structure AdamState (v : Type) where
  step : Nat
  exp_avg : v
  exp_avg_sq : v
  max_exp_avg_sq : v
deriving DecidableEq, Repr

/-- The opaque fused CUDA kernel `torch.stochastic_rounding_adam_step`, an
external collaborator: given the decoupled-weight-decay flag, the parameter
and gradient values and the current state, it returns the updated parameter
value and state (the hyperparameters lr, betas, eps, weight_decay, amsgrad
and the scaler inputs are folded into the function). -/
def Kernel (v : Type) : Type :=
  Bool → v → v → AdamState v → v × AdamState v

/-- Look a parameter's state up by its identity. -/
def lookupState {v : Type} : List (Nat × AdamState v) → Nat → Option (AdamState v)
  | [], _ => none
  | (j, s) :: rest, i => if j = i then some s else lookupState rest i

/-- Store a parameter's state under its identity (overwriting an existing
entry, appending otherwise). -/
def setState {v : Type} : List (Nat × AdamState v) → Nat → AdamState v →
    List (Nat × AdamState v)
  | [], i, st => [(i, st)]
  | (j, s) :: rest, i, st =>
    if j = i then (i, st) :: rest else (j, s) :: setState rest i st

/-- Whether a parameter will be updated by `step` (its grad is not None). -/
def hasGrad {v : Type} (p : ParamT v) : Bool :=
  p.grad.isSome

/-- Whether a parameter carries a sparse gradient. -/
def hasSparseGrad {v : Type} (p : ParamT v) : Bool :=
  match p.grad with
  | none => false
  | some g => g.isSparse

/-- Identities of the parameters the loop updates (those whose grad is not
None). -/
def updatedIds {v : Type} (ps : List (ParamT v)) : List Nat :=
  (ps.filter hasGrad).map ParamT.id

/-- Embeds the parameter loop shared verbatim by `SRAdam.step` (sradam.py
lines 84-115) and `SRAdamW.step` (sradamw.py lines 64-95), which differ only
in the error message and the decoupled-weight-decay flag passed to the
kernel: a parameter with grad None is skipped by `continue` before its state
is touched; a sparse gradient raises RuntimeError; otherwise the state is
initialized to zeros if empty, the step counter incremented, and the fused
kernel applied. -/
def stepLoop {v : Type} (msg : String) (zero : v) (k : Kernel v)
    (dec : Bool) :
    List (ParamT v) → List (Nat × AdamState v) →
    Except String (List (ParamT v) × List (Nat × AdamState v))
  | [], ss => Except.ok ([], ss)
  | p :: rest, ss =>
    match p.grad with
    | none =>
      match stepLoop msg zero k dec rest ss with
      | Except.error m => Except.error m
      | Except.ok (ps2, ss2) => Except.ok (p :: ps2, ss2)
    | some g =>
      if g.isSparse then Except.error msg
      else
        let st0 : AdamState v := match lookupState ss p.id with
          | none => ⟨0, zero, zero, zero⟩
          | some s => s
        let upd := k dec p.value g.value { st0 with step := st0.step + 1 }
        match stepLoop msg zero k dec rest (setState ss p.id upd.2) with
        | Except.error m => Except.error m
        | Except.ok (ps2, ss2) =>
          Except.ok ({ p with value := upd.1 } :: ps2, ss2)

/-- The RuntimeError message of `SRAdam.step` for sparse gradients. -/
def sradamSparseMsg : String := "SRAdam does not support sparse gradients"

/-- The RuntimeError message of `SRAdamW.step` for sparse gradients. -/
def sradamwSparseMsg : String := "SRAdamW does not support sparse gradients"

/-- Embeds `SRAdam.step` restricted to one parameter group (closure and
grad-scaler handling are external collaborators folded into the kernel). -/
def sradamStep {v : Type} (zero : v) (k : Kernel v) (ps : List (ParamT v))
    (ss : List (Nat × AdamState v)) :
    Except String (List (ParamT v) × List (Nat × AdamState v)) :=
  stepLoop sradamSparseMsg zero k false ps ss

/-- Embeds `SRAdamW.step` restricted to one parameter group. -/
def sradamwStep {v : Type} (zero : v) (k : Kernel v) (ps : List (ParamT v))
    (ss : List (Nat × AdamState v)) :
    Except String (List (ParamT v) × List (Nat × AdamState v)) :=
  stepLoop sradamwSparseMsg zero k true ps ss

/-- What a successful step guarantees for skipped parameters: the parameter
list keeps its length, every parameter whose grad is None is returned
unchanged at its position, and the state of every identity not belonging to
an updated parameter is untouched. -/
def SkippedSpec {v : Type} (ps : List (ParamT v))
    (ss : List (Nat × AdamState v)) (ps1 : List (ParamT v))
    (ss1 : List (Nat × AdamState v)) : Prop :=
  ps1.length = ps.length ∧
  (∀ (i : Nat) (h : i < ps.length) (h1 : i < ps1.length),
     (ps.get ⟨i, h⟩).grad = none → ps1.get ⟨i, h1⟩ = ps.get ⟨i, h⟩) ∧
  (∀ j : Nat, j ∉ updatedIds ps → lookupState ss1 j = lookupState ss j)

theorem lookupState_setState_ne {v : Type} (ss : List (Nat × AdamState v))
    (i j : Nat) (st : AdamState v) (hne : j ≠ i) :
    lookupState (setState ss i st) j = lookupState ss j := by
  have hij : ¬ i = j := fun h => hne h.symm
  induction ss with
  | nil => simp [setState, lookupState, hij]
  | cons e rest ih =>
    obtain ⟨n, s⟩ := e
    by_cases hni : n = i
    · subst hni
      simp [setState, lookupState, hij]
    · simp [setState, lookupState, hni, ih]

theorem stepLoop_sparse_error {v : Type} (msg : String) (zero : v)
    (k : Kernel v) (dec : Bool) :
    ∀ (ps : List (ParamT v)) (ss : List (Nat × AdamState v)),
      (∃ p ∈ ps, hasSparseGrad p = true) →
      stepLoop msg zero k dec ps ss = Except.error msg := by
  intro ps
  induction ps with
  | nil => intro ss h; rcases h with ⟨p, hp, _⟩; cases hp
  | cons p rest ih =>
    intro ss h
    rcases h with ⟨q, hq, hsp⟩
    rcases List.mem_cons.mp hq with rfl | hmem
    · cases hpg : q.grad with
      | none => simp [hasSparseGrad, hpg] at hsp
      | some g =>
        have hs : g.isSparse = true := by
          simpa [hasSparseGrad, hpg] using hsp
        simp [stepLoop, hpg, hs]
    · cases hpg : p.grad with
      | none =>
        simp [stepLoop, hpg,
          show ∀ ss2, stepLoop msg zero k dec rest ss2 = Except.error msg
            from fun ss2 => ih ss2 ⟨q, hmem, hsp⟩]
      | some g =>
        by_cases hs : g.isSparse
        · simp [stepLoop, hpg, hs]
        · simp [stepLoop, hpg, hs,
            show ∀ ss2, stepLoop msg zero k dec rest ss2 = Except.error msg
              from fun ss2 => ih ss2 ⟨q, hmem, hsp⟩]

theorem stepLoop_ok_skipped {v : Type} (msg : String) (zero : v)
    (k : Kernel v) (dec : Bool) :
    ∀ (ps : List (ParamT v)) (ss : List (Nat × AdamState v))
      (ps1 : List (ParamT v)) (ss1 : List (Nat × AdamState v)),
      stepLoop msg zero k dec ps ss = Except.ok (ps1, ss1) →
      SkippedSpec ps ss ps1 ss1 := by
  intro ps
  induction ps with
  | nil =>
    intro ss ps1 ss1 heq
    simp only [stepLoop, Except.ok.injEq, Prod.mk.injEq] at heq
    obtain ⟨h1, h2⟩ := heq
    subst h1; subst h2
    refine ⟨rfl, ?_, ?_⟩
    · intro i h h1 _
      exact absurd h (Nat.not_lt_zero i)
    · intro j _
      rfl
  | cons p rest ih =>
    intro ss ps1 ss1 heq
    cases hpg : p.grad with
    | none =>
      simp only [stepLoop, hpg] at heq
      split at heq
      · simp at heq
      · rename_i ps2 ss2 hrec
        simp only [Except.ok.injEq, Prod.mk.injEq] at heq
        obtain ⟨h1, h2⟩ := heq
        subst h1; subst h2
        obtain ⟨hlen, hget, hstate⟩ := ih ss ps2 ss2 hrec
        refine ⟨by simp [hlen], ?_, ?_⟩
        · intro i h h1 hnone
          match i with
          | 0 => rfl
          | Nat.succ i2 =>
            exact hget i2 (Nat.lt_of_succ_lt_succ h)
              (Nat.lt_of_succ_lt_succ h1) hnone
        · intro j hj
          have hj2 : j ∉ updatedIds rest := by
            simpa [updatedIds, List.filter_cons, hasGrad, hpg] using hj
          exact hstate j hj2
    | some g =>
      by_cases hs : g.isSparse
      · simp [stepLoop, hpg, hs] at heq
      · simp only [stepLoop, hpg, hs, Bool.false_eq_true, if_false] at heq
        split at heq
        · simp at heq
        · rename_i ps2 ss2 hrec
          simp only [Except.ok.injEq, Prod.mk.injEq] at heq
          obtain ⟨h1, h2⟩ := heq
          subst h1; subst h2
          obtain ⟨hlen, hget, hstate⟩ := ih _ ps2 ss2 hrec
          refine ⟨by simp [hlen], ?_, ?_⟩
          · intro i h h1 hnone
            match i with
            | 0 =>
              simp only [List.get] at hnone
              rw [hpg] at hnone
              cases hnone
            | Nat.succ i2 =>
              exact hget i2 (Nat.lt_of_succ_lt_succ h)
                (Nat.lt_of_succ_lt_succ h1) hnone
          · intro j hj
            have hj' : ¬ (j = p.id ∨ j ∈ updatedIds rest) := by
              simpa [updatedIds, List.filter_cons, hasGrad, hpg] using hj
            obtain ⟨hjid, hj2⟩ := not_or.mp hj'
            calc lookupState ss2 j
                = lookupState (setState ss p.id _) j := hstate j hj2
              _ = lookupState ss j :=
                  lookupState_setState_ne _ _ _ _ hjid

/-- Claim C10: for both SRAdam.step and SRAdamW.step, if any parameter to be
updated carries a sparse gradient the call raises RuntimeError (the
optimizer's sparse-gradient message), and on a successful call every
parameter whose grad is None is skipped entirely: it is returned unchanged at
its position and no optimizer state is initialized or modified for any
identity outside the updated parameters. -/
theorem c10_step_sparse_and_skip {v : Type} (zero : v) (k : Kernel v)
    (ps : List (ParamT v)) (ss : List (Nat × AdamState v)) :
    ((∃ p ∈ ps, hasSparseGrad p = true) →
       sradamStep zero k ps ss = Except.error sradamSparseMsg ∧
       sradamwStep zero k ps ss = Except.error sradamwSparseMsg) ∧
    (∀ (ps1 : List (ParamT v)) (ss1 : List (Nat × AdamState v)),
       sradamStep zero k ps ss = Except.ok (ps1, ss1) →
       SkippedSpec ps ss ps1 ss1) ∧
    (∀ (ps1 : List (ParamT v)) (ss1 : List (Nat × AdamState v)),
       sradamwStep zero k ps ss = Except.ok (ps1, ss1) →
       SkippedSpec ps ss ps1 ss1) :=
  ⟨fun h => ⟨stepLoop_sparse_error sradamSparseMsg zero k false ps ss h,
             stepLoop_sparse_error sradamwSparseMsg zero k true ps ss h⟩,
   fun ps1 ss1 heq =>
     stepLoop_ok_skipped sradamSparseMsg zero k false ps ss ps1 ss1 heq,
   fun ps1 ss1 heq =>
     stepLoop_ok_skipped sradamwSparseMsg zero k true ps ss ps1 ss1 heq⟩

/-- A concrete kernel for the witness: plain gradient descent on integers. -/
def demoKernel : Kernel Int :=
  fun _ p g st => (p - g, { st with exp_avg := g })

/-- Concrete parameters for the witness: one skipped parameter (grad None)
and one parameter with a sparse gradient. -/
def demoParams : List (ParamT Int) :=
  [⟨0, 5, none⟩, ⟨1, 3, some ⟨2, true⟩⟩]

theorem c10_step_sparse_and_skip_witness :
    sradamStep (0 : Int) demoKernel demoParams [] =
      Except.error sradamSparseMsg ∧
    sradamwStep (0 : Int) demoKernel demoParams [] =
      Except.error sradamwSparseMsg :=
  (c10_step_sparse_and_skip (0 : Int) demoKernel demoParams []).1
    ⟨⟨1, 3, some ⟨2, true⟩⟩, by decide, by decide⟩
